import Mathlib

/-!
# Verification of the Cascading Text-to-Taxonomy Resolution Engine

A shallow embedding of `src/utils/fuzzy_matcher.py` (class `FuzzyMatcher`):
the normalizer, the exact / keyword / sentence-scan / similarity matchers,
and the cascade orchestration in `match_product_type` and
`match_hazard_category`.

Modelling conventions:
* A pandas cell is a `PyVal`: either a missing value (`nan`), Python `None`,
  a string, a boolean, or an integer.  `PyVal.truthy` is Python truthiness,
  `PyVal.isna` is `pd.isna`, `PyVal.toStr` is `str(...)`.
* A `Row` is an association list from column names to cells; looking up a
  column that the row does not list yields `nan` (in pandas every row of a
  frame carries every column, missing entries being NaN).
* A `Frame` is an ordered column list plus an ordered row list.
* `pandasStr` models the vectorized `astype(str).str.strip().str.lower()`
  pipeline; `normalizeText` models `FuzzyMatcher._normalize_text`.
* The rapidfuzz scorer (`fuzz.WRatio`) is an external library function and is
  modelled as an abstract parameter `sc : String → String → Nat` producing
  scores on the 0–100 scale; `extractOne` models
  `rapidfuzz.process.extractOne` (best score wins, earlier choice wins ties,
  results scoring below the cutoff are dropped).
-/

inductive PyVal where
  | nan : PyVal
  | none : PyVal
  | str : String → PyVal
  | bool : Bool → PyVal
  | int : Int → PyVal
deriving DecidableEq

/-- Python truthiness (`bool(x)`): NaN is truthy, `None` is falsy, a string
is truthy iff non-empty, numbers are truthy iff non-zero. -/
def PyVal.truthy : PyVal → Bool
  | .nan => true
  | .none => false
  | .str s => !(s.length == 0)
  | .bool b => b
  | .int n => !(n == 0)

/-- `pd.isna`. -/
def PyVal.isna : PyVal → Bool
  | .nan => true
  | .none => true
  | _ => false

/-- Python `str(x)`. -/
def PyVal.toStr : PyVal → String
  | .nan => "nan"
  | .none => "None"
  | .str s => s
  | .bool b => if b then "True" else "False"
  | .int n => toString n

structure Row where
  entries : List (String × PyVal)
deriving DecidableEq

/-- Cell lookup: a column not listed in the row reads as NaN. -/
def Row.cell (r : Row) (c : String) : PyVal :=
  match r.entries.find? (fun p => p.1 == c) with
  | some p => p.2
  | Option.none => PyVal.nan

structure Frame where
  columns : List String
  rows : List Row
deriving DecidableEq

/-- `DataFrame.empty`: true when the frame has no rows or no columns. -/
def Frame.isEmpty (df : Frame) : Bool :=
  df.rows.isEmpty || df.columns.isEmpty

/-- Python string falsiness (`not s` for a `str`). -/
def strFalsy (s : String) : Bool :=
  s.length == 0

/-- Python `.lower()`: per-character lowercasing. -/
def strLower (s : String) : String :=
  ⟨s.data.map Char.toLower⟩

/-- Python `.strip()`: drop leading and trailing whitespace. -/
def strTrim (s : String) : String :=
  ⟨((s.data.dropWhile Char.isWhitespace).reverse.dropWhile Char.isWhitespace).reverse⟩

/-- `str(x).strip().lower()` applied to an already-string value. -/
def normStr (s : String) : String :=
  strLower (strTrim s)

/-- The vectorized `astype(str).str.strip().str.lower()` pipeline applied to
one cell: a missing value is first cast to the literal string `"nan"`. -/
def pandasStr (v : PyVal) : String :=
  normStr v.toStr

/-- `FuzzyMatcher._normalize_text`: falsy or missing input normalizes to the
empty string, everything else to `str(text).strip().lower()`. -/
def normalizeText (v : PyVal) : String :=
  if !v.truthy || v.isna then "" else normStr v.toStr

/-- Contiguous-sublist test on character lists. -/
def listInfix (needle : List Char) : List Char → Bool
  | [] => needle.isEmpty
  | a :: t => needle.isPrefixOf (a :: t) || listInfix needle t

/-- Python `needle in hay` on strings: contiguous substring test. -/
def substrB (needle hay : String) : Bool :=
  listInfix needle.toList hay.toList

/-- `FuzzyMatcher.__init__`: the two thresholds are stored as given. -/
structure FuzzyMatcher where
  similarity_threshold : Nat
  long_text_threshold : Nat
deriving DecidableEq

def FuzzyMatcher.init (similarity_threshold : Nat) (long_text_threshold : Nat) :
    FuzzyMatcher :=
  ⟨similarity_threshold, long_text_threshold⟩

/-! ## Exact matcher (`FuzzyMatcher._exact_match`) -/

/-- One column of the exact matcher: the first row whose cell, sent through
`astype(str).str.strip().str.lower()`, equals the normalized query. -/
def exactCol (s : String) (df : Frame) (c : String) : Option Row :=
  df.rows.find? (fun r => pandasStr (Row.cell r c) == s)

/-- `FuzzyMatcher._exact_match`: columns are tried in the given order,
columns absent from the frame are skipped, the first column with any equal
row decides and its first equal row is returned. -/
def exactMatch (s : String) (df : Frame) : List String → Option Row
  | [] => Option.none
  | c :: rest =>
    if df.columns.contains c then
      match exactCol s df c with
      | some r => some r
      | Option.none => exactMatch s df rest
    else exactMatch s df rest

/-! ## Keyword matcher (`FuzzyMatcher._keyword_match`) -/

/-- First pass of one keyword column
(`.str.contains(search_term, regex=False)` over the cast-and-normalized
column): the first row whose column value contains the query. -/
def containsCol (s : String) (df : Frame) (c : String) : Option Row :=
  df.rows.find? (fun r => substrB s (pandasStr (Row.cell r c)))

/-- Second pass of one keyword column (the `for idx, ref_value in ... .items()`
loop): the first row whose normalized, non-empty column value occurs inside
the query. -/
def reverseCol (s : String) (df : Frame) (c : String) : Option Row :=
  df.rows.find? (fun r =>
    !strFalsy (normalizeText (Row.cell r c)) &&
      substrB (normalizeText (Row.cell r c)) s)

/-- `FuzzyMatcher._keyword_match`: per column, first the
reference-value-contains-query pass, then the query-contains-reference-value
pass; the first hit wins, otherwise the next column is tried. -/
def keywordMatch (s : String) (df : Frame) : List String → Option Row
  | [] => Option.none
  | c :: rest =>
    if df.columns.contains c then
      match containsCol s df c with
      | some r => some r
      | Option.none =>
        match reverseCol s df c with
        | some r => some r
        | Option.none => keywordMatch s df rest
    else keywordMatch s df rest

/-! ## Sentence scanner (`FuzzyMatcher._sentence_scan_match`) -/

/-- The scan order of the sentence scanner: for each candidate column present
in the frame (in the given order), for each row (in row order), the pair of
the row and its normalized value in that column. -/
def scanPairs (df : Frame) (cols : List String) : List (Row × String) :=
  (cols.filter (fun c => df.columns.contains c)).flatMap
    (fun c => df.rows.map (fun r => (r, normalizeText (Row.cell r c))))

/-- The accumulator loop of `_sentence_scan_match`: skip empty values and
values not occurring in the query, and replace the best candidate only on a
strictly greater value length. -/
def scanLoop (s : String) : List (Row × String) → Option Row → Nat → Option Row
  | [], best, _ => best
  | (r, v) :: rest, best, bestLen =>
    if !strFalsy v && substrB v s then
      if v.length > bestLen then scanLoop s rest (some r) v.length
      else scanLoop s rest best bestLen
    else scanLoop s rest best bestLen

/-- `FuzzyMatcher._sentence_scan_match`. -/
def sentenceScan (s : String) (df : Frame) (cols : List String) : Option Row :=
  scanLoop s (scanPairs df cols) Option.none 0

/-! ## Similarity matcher (`FuzzyMatcher._fuzzy_match`) -/

/-- Best-scoring choice, earlier choices winning ties: the model of the
selection performed by `rapidfuzz.process.extractOne` before the cutoff is
applied.  Returns the choice, its score and its index. -/
def argmaxFirst (f : String → Nat) : List String → Option (String × Nat × Nat)
  | [] => Option.none
  | c :: rest =>
    match argmaxFirst f rest with
    | Option.none => some (c, f c, 0)
    | some (c', s', i') =>
      if f c ≥ s' then some (c, f c, 0) else some (c', s', i' + 1)

/-- `rapidfuzz.process.extractOne sc (q, choices, score_cutoff)`: the best
choice, provided its score is at or above the cutoff. -/
def extractOne (sc : String → String → Nat) (q : String) (choices : List String)
    (cutoff : Nat) : Option (String × Nat × Nat) :=
  match argmaxFirst (sc q) choices with
  | Option.none => Option.none
  | some (c, s0, i) => if s0 ≥ cutoff then some (c, s0, i) else Option.none

/-- The column loop of `_fuzzy_match`: per present column, `extractOne` over
the cast-and-normalized column values; the running best row is replaced only
on a strictly greater score. -/
def fuzzyLoop (sc : String → String → Nat) (cutoff : Nat) (s : String)
    (df : Frame) : List String → Option Row → Nat → Option Row
  | [], best, _ => best
  | c :: rest, best, bs =>
    if df.columns.contains c then
      match extractOne sc s (df.rows.map (fun r => pandasStr (Row.cell r c))) cutoff with
      | Option.none => fuzzyLoop sc cutoff s df rest best bs
      | some (_, sco, idx) =>
        if sco > bs then
          fuzzyLoop sc cutoff s df rest (df.rows[idx]?.getD ⟨[]⟩) sco
        else fuzzyLoop sc cutoff s df rest best bs
    else fuzzyLoop sc cutoff s df rest best bs

/-- `FuzzyMatcher._fuzzy_match`. -/
def fuzzyMatch (sc : String → String → Nat) (cutoff : Nat) (s : String)
    (df : Frame) (cols : List String) : Option Row :=
  fuzzyLoop sc cutoff s df cols Option.none 0

/-! ## Cascade orchestration -/

/-- Candidate columns of `match_product_type`. -/
def productCols : List String := ["KOR_NM", "ENG_NM"]

/-- Candidate columns of `match_hazard_category`. -/
def hazardCols : List String := ["KOR_NM", "ENG_NM", "ABRV", "NCKNM", "TESTITM_NM"]

structure ProductInfo where
  top : Option PyVal
  upper : Option PyVal
deriving DecidableEq

/-- The all-null product no-match result. -/
def noProduct : ProductInfo := ⟨Option.none, Option.none⟩

structure HazardInfo where
  category : Option PyVal
  analyzable : Bool
  interest : Bool
deriving DecidableEq

/-- The all-null/false hazard no-match result. -/
def noHazard : HazardInfo := ⟨Option.none, false, false⟩

/-- The strategy chain of `match_product_type`:
exact, then keyword, then similarity. -/
def productMatchedRow (sc : String → String → Nat) (fm : FuzzyMatcher)
    (s : String) (df : Frame) : Option Row :=
  match exactMatch s df productCols with
  | some r => some r
  | Option.none =>
    match keywordMatch s df productCols with
    | some r => some r
    | Option.none => fuzzyMatch sc fm.similarity_threshold s df productCols

/-- `FuzzyMatcher.match_product_type`. -/
def matchProductType (sc : String → String → Nat) (fm : FuzzyMatcher)
    (raw : PyVal) (df : Frame) : ProductInfo :=
  if df.isEmpty || !raw.truthy then noProduct
  else
    let s := normalizeText raw
    if strFalsy s then noProduct
    else
      match productMatchedRow sc fm s df with
      | Option.none => noProduct
      | some r =>
        { top :=
            if df.columns.contains "HTRK_PRDLST_NM" && !(Row.cell r "HTRK_PRDLST_NM").isna then
              some (Row.cell r "HTRK_PRDLST_NM")
            else if df.columns.contains "GR_NM" && !(Row.cell r "GR_NM").isna then
              some (Row.cell r "GR_NM")
            else Option.none
          upper :=
            if df.columns.contains "HRRK_PRDLST_NM" && !(Row.cell r "HRRK_PRDLST_NM").isna then
              some (Row.cell r "HRRK_PRDLST_NM")
            else if df.columns.contains "PRDLST_CL_NM" && !(Row.cell r "PRDLST_CL_NM").isna then
              some (Row.cell r "PRDLST_CL_NM")
            else Option.none }

/-- The strategy selection of `match_hazard_category`: above the long-text
threshold, sentence scan with exact/keyword fallback and no similarity stage;
at or below it, the standard exact/keyword/similarity chain. -/
def hazardMatchedRow (sc : String → String → Nat) (fm : FuzzyMatcher)
    (s : String) (df : Frame) : Option Row :=
  if s.length > fm.long_text_threshold then
    match sentenceScan s df hazardCols with
    | some r => some r
    | Option.none =>
      match exactMatch s df hazardCols with
      | some r => some r
      | Option.none => keywordMatch s df hazardCols
  else
    match exactMatch s df hazardCols with
    | some r => some r
    | Option.none =>
      match keywordMatch s df hazardCols with
      | some r => some r
      | Option.none => fuzzyMatch sc fm.similarity_threshold s df hazardCols

/-- `FuzzyMatcher.match_hazard_category`. -/
def matchHazardCategory (sc : String → String → Nat) (fm : FuzzyMatcher)
    (raw : PyVal) (df : Frame) : HazardInfo :=
  if df.isEmpty || !raw.truthy then noHazard
  else
    let s := normalizeText raw
    if strFalsy s then noHazard
    else
      match hazardMatchedRow sc fm s df with
      | Option.none => noHazard
      | some r =>
        { category :=
            if df.columns.contains "M_KOR_NM" then some (Row.cell r "M_KOR_NM")
            else Option.none
          analyzable :=
            if df.columns.contains "ANALYZABLE" then (Row.cell r "ANALYZABLE").truthy
            else false
          interest :=
            if df.columns.contains "INTEREST_ITEM" then (Row.cell r "INTEREST_ITEM").truthy
            else false }

/-! ## Specification-level view of the sentence scanner (claim C4) -/

/-- The occurrence test of the sentence scanner: a non-empty normalized value
occurring inside the query. -/
def scanOcc (s : String) (p : Row × String) : Bool :=
  !strFalsy p.2 && substrB p.2 s

/-- All occurrences: scan pairs whose value actually occurs in the query. -/
def scanHits (s : String) (df : Frame) (cols : List String) : List (Row × String) :=
  (scanPairs df cols).filter (scanOcc s)

/-- Greatest value length over a pair list. -/
def maxHitLen (l : List (Row × String)) : Nat :=
  l.foldr (fun p m => max p.2.length m) 0

/-- Modelled from the spec: "prefer the entry whose matched value has the
greatest character length"; "if two entries tie on length … first encountered
in snapshot iteration order".  The first pair in scan order whose value
length equals the greatest occurring length. -/
def firstLongest (l : List (Row × String)) : Option Row :=
  (l.find? (fun p => p.2.length == maxHitLen l)).map Prod.fst

/-! ## Specification-level view of the similarity matcher (claim C5) -/

/-- Greatest value of `f` over a string list (0 when empty). -/
def listMaxF (f : String → Nat) (l : List String) : Nat :=
  l.foldr (fun x m => max (f x) m) 0

/-- Best similarity score within one column. -/
def colMax (sc : String → String → Nat) (s : String) (df : Frame) (c : String) : Nat :=
  listMaxF (sc s) (df.rows.map (fun r => pandasStr (Row.cell r c)))

/-- Globally best similarity score across all candidate columns present in
the frame. -/
def globalMaxScore (sc : String → String → Nat) (s : String) (df : Frame) :
    List String → Nat
  | [] => 0
  | c :: rest =>
    if df.columns.contains c = true then
      max (colMax sc s df c) (globalMaxScore sc s df rest)
    else globalMaxScore sc s df rest

/-- Best similarity score among candidate columns whose column-best score
reaches the cutoff (the scores that can actually update the running best). -/
def cutMaxScore (sc : String → String → Nat) (cutoff : Nat) (s : String)
    (df : Frame) : List String → Nat
  | [] => 0
  | c :: rest =>
    if df.columns.contains c = true ∧ cutoff ≤ colMax sc s df c then
      max (colMax sc s df c) (cutMaxScore sc cutoff s df rest)
    else cutMaxScore sc cutoff s df rest

/-- The row `r` realizes similarity score `v` in some candidate column. -/
def attains (sc : String → String → Nat) (s : String) (df : Frame)
    (cols : List String) (r : Row) (v : Nat) : Prop :=
  ∃ c, cols.contains c = true ∧ df.columns.contains c = true ∧
    r ∈ df.rows ∧ sc s (pandasStr (Row.cell r c)) = v

/-! ## Specification-level view of the keyword matcher (claim C2) -/

/-- Modelled from the spec: claim C2's pass order — per candidate column,
first "does the query contain an entry's column value as a substring"
(non-empty normalized values), then "does an entry's column value contain
the query as a substring"; the first hit by column order, then row order,
wins. -/
def specKeywordClaimOrder (s : String) (df : Frame) : List String → Option Row
  | [] => Option.none
  | c :: rest =>
    if df.columns.contains c then
      match reverseCol s df c with
      | some r => some r
      | Option.none =>
        match containsCol s df c with
        | some r => some r
        | Option.none => specKeywordClaimOrder s df rest
    else specKeywordClaimOrder s df rest

/-! ## Concrete data for witnesses and counterexamples -/

/-- The constant-zero scorer (rapidfuzz `WRatio` yields 0 for completely
dissimilar strings, e.g. `WRatio("abc", "xyz") = 0`). -/
def scZero : String → String → Nat := fun _ _ => 0

/-- A simple concrete scorer: 100 for equal strings, 40 otherwise. -/
def scEq : String → String → Nat := fun a b => if a == b then 100 else 40

/-- A second concrete scorer, differing from `scEq`. -/
def scEq2 : String → String → Nat := fun a b => if a == b then 90 else 0

def rowShrimp : Row :=
  ⟨[("KOR_NM", PyVal.str "새우"), ("ENG_NM", PyVal.str "Shrimp"),
    ("HTRK_PRDLST_NM", PyVal.str "수산물"), ("GR_NM", PyVal.str "수산물"),
    ("HRRK_PRDLST_NM", PyVal.str "갑각류"), ("PRDLST_CL_NM", PyVal.str "갑각류")]⟩

def wProductDf : Frame :=
  ⟨["KOR_NM", "ENG_NM", "HTRK_PRDLST_NM", "GR_NM", "HRRK_PRDLST_NM", "PRDLST_CL_NM"],
   [rowShrimp]⟩

def rowColi : Row :=
  ⟨[("ENG_NM", PyVal.str "coli"), ("M_KOR_NM", PyVal.str "미생물-일반"),
    ("ANALYZABLE", PyVal.str "N"), ("INTEREST_ITEM", PyVal.nan)]⟩

def rowEColi : Row :=
  ⟨[("ENG_NM", PyVal.str "E. coli"), ("M_KOR_NM", PyVal.str "미생물-특정"),
    ("ANALYZABLE", PyVal.bool true), ("INTEREST_ITEM", PyVal.bool false)]⟩

def wHazardDf : Frame :=
  ⟨["ENG_NM", "M_KOR_NM", "ANALYZABLE", "INTEREST_ITEM"], [rowColi, rowEColi]⟩

def rowAbcdef : Row := ⟨[("KOR_NM", PyVal.str "abcdef")]⟩

def rowAb : Row := ⟨[("KOR_NM", PyVal.str "ab")]⟩

def wKeywordDf : Frame := ⟨["KOR_NM"], [rowAbcdef, rowAb]⟩

def rowSingleA : Row := ⟨[("KOR_NM", PyVal.str "a"), ("M_KOR_NM", PyVal.str "첨가물")]⟩

def wOneCharDf : Frame := ⟨["KOR_NM", "M_KOR_NM"], [rowSingleA]⟩

def rowNan : Row := ⟨[("KOR_NM", PyVal.nan)]⟩

def rowX : Row := ⟨[("KOR_NM", PyVal.str "x")]⟩

def wNanDf : Frame := ⟨["KOR_NM"], [rowX, rowNan]⟩

def wNanOnlyDf : Frame := ⟨["KOR_NM"], [rowNan]⟩

def rowXyz : Row := ⟨[("KOR_NM", PyVal.str "xyz")]⟩

def wXyzDf : Frame := ⟨["KOR_NM"], [rowXyz]⟩

theorem mem_le_maxHitLen {p : Row × String} {l : List (Row × String)}
    (h : p ∈ l) : p.2.length ≤ maxHitLen l := by
  induction l with
  | nil => cases h
  | cons q t ih =>
    rcases List.mem_cons.mp h with h | h
    · subst h; exact Nat.le_max_left _ _
    · exact Nat.le_trans (ih h) (Nat.le_max_right _ _)

theorem scanLoop_eq (s : String) :
    ∀ (l : List (Row × String)) (b : Option Row) (bl : Nat),
      scanLoop s l b bl =
        if maxHitLen (l.filter (scanOcc s)) ≤ bl then b
        else ((l.filter (scanOcc s)).find?
                (fun p => p.2.length == maxHitLen (l.filter (scanOcc s)))).map Prod.fst := by
  intro l
  induction l with
  | nil => intro b bl; simp [scanLoop, maxHitLen]
  | cons p t ih =>
    obtain ⟨r, v⟩ := p
    intro b bl
    by_cases hocc : scanOcc s (r, v) = true
    · have hfil : ((r, v) :: t).filter (scanOcc s) = (r, v) :: t.filter (scanOcc s) :=
        List.filter_cons_of_pos hocc
      have hcond : (!strFalsy v && substrB v s) = true := hocc
      have hmax : maxHitLen ((r, v) :: t.filter (scanOcc s)) =
          max v.length (maxHitLen (t.filter (scanOcc s))) := rfl
      rw [hfil, hmax]
      simp only [scanLoop, hcond, if_true]
      by_cases hvb : v.length > bl
      · rw [if_pos hvb, ih]
        by_cases hMt : maxHitLen (t.filter (scanOcc s)) ≤ v.length
        · have h1 : ¬ max v.length (maxHitLen (t.filter (scanOcc s))) ≤ bl := by
            have := Nat.le_max_left v.length (maxHitLen (t.filter (scanOcc s)))
            omega
          rw [if_pos hMt, if_neg h1]
          simp [List.find?, Nat.max_eq_left hMt]
        · push_neg at hMt
          have hM : max v.length (maxHitLen (t.filter (scanOcc s))) =
              maxHitLen (t.filter (scanOcc s)) := Nat.max_eq_right (Nat.le_of_lt hMt)
          have hne : (v.length == maxHitLen (t.filter (scanOcc s))) = false :=
            beq_eq_false_iff_ne.mpr (Nat.ne_of_lt hMt)
          have h1 : ¬ max v.length (maxHitLen (t.filter (scanOcc s))) ≤ bl := by
            rw [hM]; omega
          rw [if_neg (by omega : ¬ maxHitLen (t.filter (scanOcc s)) ≤ v.length), if_neg h1]
          simp only [hM]
          simp [List.find?, hne]
      · push_neg at hvb
        rw [if_neg (by omega : ¬ v.length > bl), ih]
        by_cases hMt : maxHitLen (t.filter (scanOcc s)) ≤ bl
        · have h1 : max v.length (maxHitLen (t.filter (scanOcc s))) ≤ bl := by
            have := Nat.max_le.mpr (And.intro hvb hMt)
            omega
          rw [if_pos hMt, if_pos h1]
        · push_neg at hMt
          have hM : max v.length (maxHitLen (t.filter (scanOcc s))) =
              maxHitLen (t.filter (scanOcc s)) := Nat.max_eq_right (by omega)
          have hne : (v.length == maxHitLen (t.filter (scanOcc s))) = false :=
            beq_eq_false_iff_ne.mpr (Nat.ne_of_lt (by omega))
          have h1 : ¬ max v.length (maxHitLen (t.filter (scanOcc s))) ≤ bl := by
            rw [hM]; omega
          rw [if_neg (by omega : ¬ maxHitLen (t.filter (scanOcc s)) ≤ bl), if_neg h1]
          simp only [hM]
          simp [List.find?, hne]
    · have hfil : ((r, v) :: t).filter (scanOcc s) = t.filter (scanOcc s) :=
        List.filter_cons_of_neg (by simpa using hocc)
      have hcond : (!strFalsy v && substrB v s) = false := by
        simpa [scanOcc] using hocc
      rw [hfil]
      simp only [scanLoop, hcond, Bool.false_eq_true, if_false]
      exact ih b bl

/-- **C4** (confirmed): the sentence scanner returns exactly the first entry,
in scan order (candidate columns in order, snapshot rows in order), whose
non-empty normalized column value occurs as a substring of the query and
whose value length equals the greatest length among all occurring values
across all candidate columns; if no value occurs it returns no match.  This
is the claim's longest-match rule with first-encountered tie-break, stated as
equivalence with the spec-level selector `firstLongest` over the occurrence
list `scanHits`. -/
theorem sentence_scan_specificity (s : String) (df : Frame) (cols : List String) :
    sentenceScan s df cols = firstLongest (scanHits s df cols) := by
  unfold sentenceScan firstLongest scanHits
  rw [scanLoop_eq]
  by_cases h : maxHitLen ((scanPairs df cols).filter (scanOcc s)) ≤ 0
  · have hnil : (scanPairs df cols).filter (scanOcc s) = [] := by
      cases hfil : (scanPairs df cols).filter (scanOcc s) with
      | nil => rfl
      | cons p t =>
        exfalso
        have hp : p ∈ (scanPairs df cols).filter (scanOcc s) := by
          rw [hfil]; exact List.mem_cons_self _ _
        have hocc : scanOcc s p = true := (List.mem_filter.mp hp).2
        have hlen : p.2.length ≠ 0 := by
          have := (Bool.and_eq_true _ _).mp hocc |>.1
          simp only [strFalsy, Bool.not_eq_true', beq_eq_false_iff_ne, ne_eq] at this
          exact this
        have hle := mem_le_maxHitLen hp
        omega
    rw [if_pos h, hnil]
    rfl
  · rw [if_neg h]

/-! ## Cascade claims (C1, C7, C8) -/

/-- **C1** (confirmed): for a hazard query whose normalized length exceeds
the long-text threshold, the matched row is the first non-null result of the
cascade Sentence Scan, then Exact, then Keyword, and the whole hazard
resolution is independent of the similarity scorer (the Similarity matcher is
never invoked); for a query at or below the threshold, the matched row is the
first non-null result of Exact, then Keyword, then Similarity. -/
theorem hazard_long_text_cascade (sc sc' : String → String → Nat)
    (fm : FuzzyMatcher) (raw : PyVal) (df : Frame) :
    (fm.long_text_threshold < (normalizeText raw).length →
      hazardMatchedRow sc fm (normalizeText raw) df =
        ((sentenceScan (normalizeText raw) df hazardCols).orElse fun _ =>
          (exactMatch (normalizeText raw) df hazardCols).orElse fun _ =>
            keywordMatch (normalizeText raw) df hazardCols) ∧
      matchHazardCategory sc fm raw df = matchHazardCategory sc' fm raw df) ∧
    ((normalizeText raw).length ≤ fm.long_text_threshold →
      hazardMatchedRow sc fm (normalizeText raw) df =
        ((exactMatch (normalizeText raw) df hazardCols).orElse fun _ =>
          (keywordMatch (normalizeText raw) df hazardCols).orElse fun _ =>
            fuzzyMatch sc fm.similarity_threshold (normalizeText raw) df hazardCols)) := by
  constructor
  · intro h
    have hrow : ∀ sc₀ : String → String → Nat,
        hazardMatchedRow sc₀ fm (normalizeText raw) df =
          ((sentenceScan (normalizeText raw) df hazardCols).orElse fun _ =>
            (exactMatch (normalizeText raw) df hazardCols).orElse fun _ =>
              keywordMatch (normalizeText raw) df hazardCols) := by
      intro sc₀
      unfold hazardMatchedRow
      rw [if_pos h]
      cases sentenceScan (normalizeText raw) df hazardCols <;>
        cases exactMatch (normalizeText raw) df hazardCols <;>
          simp [Option.orElse]
    refine ⟨hrow sc, ?_⟩
    simp only [matchHazardCategory]
    rw [hrow sc, hrow sc']
  · intro h
    unfold hazardMatchedRow
    rw [if_neg (by omega : ¬ (normalizeText raw).length > fm.long_text_threshold)]
    cases exactMatch (normalizeText raw) df hazardCols <;>
      cases keywordMatch (normalizeText raw) df hazardCols <;>
        simp [Option.orElse]

theorem matchProduct_blank (sc : String → String → Nat) (fm : FuzzyMatcher)
    (df : Frame) (raw : PyVal) (h : normalizeText raw = "") :
    matchProductType sc fm raw df = noProduct := by
  unfold matchProductType
  split
  · rfl
  · simp [h, strFalsy]

theorem matchHazard_blank (sc : String → String → Nat) (fm : FuzzyMatcher)
    (df : Frame) (raw : PyVal) (h : normalizeText raw = "") :
    matchHazardCategory sc fm raw df = noHazard := by
  unfold matchHazardCategory
  split
  · rfl
  · simp [h, strFalsy]

theorem matchProduct_emptyFrame (sc : String → String → Nat) (fm : FuzzyMatcher)
    (df : Frame) (raw : PyVal) (h : df.isEmpty = true) :
    matchProductType sc fm raw df = noProduct := by
  simp [matchProductType, h]

theorem matchHazard_emptyFrame (sc : String → String → Nat) (fm : FuzzyMatcher)
    (df : Frame) (raw : PyVal) (h : df.isEmpty = true) :
    matchHazardCategory sc fm raw df = noHazard := by
  simp [matchHazardCategory, h]

/-- **C7** (confirmed): inputs that are absent (`None`), empty, or
whitespace-only all normalize to the empty string, and any such input — as
well as any query against an empty snapshot — makes both resolve operations
return the all-null/false no-match result (the embedding is total, so no
error can be raised). -/
theorem resolve_blank_no_match (sc : String → String → Nat) (fm : FuzzyMatcher)
    (df : Frame) (raw : PyVal) :
    (normalizeText raw = "" →
      matchProductType sc fm raw df = noProduct ∧
      matchHazardCategory sc fm raw df = noHazard) ∧
    (df.isEmpty = true →
      matchProductType sc fm raw df = noProduct ∧
      matchHazardCategory sc fm raw df = noHazard) ∧
    normalizeText PyVal.none = "" ∧ normalizeText (PyVal.str "") = "" ∧
    normalizeText (PyVal.str "   ") = "" := by
  refine ⟨fun h => ⟨matchProduct_blank sc fm df raw h, matchHazard_blank sc fm df raw h⟩,
    fun h => ⟨matchProduct_emptyFrame sc fm df raw h, matchHazard_emptyFrame sc fm df raw h⟩,
    rfl, rfl, ?_⟩
  decide

theorem normalizeText_ne_empty_truthy {v : PyVal} (h : normalizeText v ≠ "") :
    v.truthy = true := by
  cases hv : v.truthy
  · exfalso
    apply h
    simp [normalizeText, hv]
  · rfl

/-- **C8** (confirmed): resolution depends on the input only through its
normalization (strip + lowercase), so any two inputs with equal normalized
forms — in particular variants differing only in leading/trailing whitespace
or letter case — resolve identically, for both taxonomies. -/
theorem resolve_case_whitespace_insensitive (sc : String → String → Nat)
    (fm : FuzzyMatcher) (df : Frame) (r₁ r₂ : PyVal)
    (h : normalizeText r₁ = normalizeText r₂) :
    matchProductType sc fm r₁ df = matchProductType sc fm r₂ df ∧
    matchHazardCategory sc fm r₁ df = matchHazardCategory sc fm r₂ df := by
  by_cases hb : normalizeText r₁ = ""
  · have hb₂ : normalizeText r₂ = "" := by rw [← h]; exact hb
    exact ⟨(matchProduct_blank sc fm df r₁ hb).trans (matchProduct_blank sc fm df r₂ hb₂).symm,
      (matchHazard_blank sc fm df r₁ hb).trans (matchHazard_blank sc fm df r₂ hb₂).symm⟩
  · have hb₂ : normalizeText r₂ ≠ "" := by rw [← h]; exact hb
    have ht₁ := normalizeText_ne_empty_truthy hb
    have ht₂ := normalizeText_ne_empty_truthy hb₂
    constructor
    · simp only [matchProductType, ht₁, ht₂, h]
    · simp only [matchHazardCategory, ht₁, ht₂, h]

/-! ## Missing-cell asymmetry and flag truthiness (C9, C10) -/

theorem normalizeText_of_isna {v : PyVal} (h : v.isna = true) :
    normalizeText v = "" := by
  simp [normalizeText, h]

/-- **C9** (confirmed): a missing cell is cast to the literal string `"nan"`
by the exact matcher's `astype(str)` pipeline, so the normalized query
`"nan"` exact-matches the first row whose cast value is `"nan"` — in
particular some row whenever a missing cell exists in a searched column; by
contrast, the reverse keyword pass and the sentence scanner normalize missing
cells to the empty string and therefore skip them entirely. -/
theorem nan_cell_asymmetry :
    (pandasStr PyVal.nan = "nan" ∧ normalizeText PyVal.nan = "") ∧
    (∀ df : Frame, ∀ c : String, df.columns.contains c = true →
      exactMatch "nan" df [c] =
        df.rows.find? (fun r => pandasStr (Row.cell r c) == "nan")) ∧
    (∀ df : Frame, ∀ c : String, ∀ r : Row, r ∈ df.rows →
      Row.cell r c = PyVal.nan → df.columns.contains c = true →
      (exactMatch "nan" df [c]).isSome = true) ∧
    (∀ s : String, ∀ df : Frame, ∀ c : String,
      (∀ r ∈ df.rows, (Row.cell r c).isna = true) →
      reverseCol s df c = Option.none) ∧
    (∀ s : String, ∀ df : Frame, ∀ cols : List String,
      (∀ r ∈ df.rows, ∀ c ∈ cols, (Row.cell r c).isna = true) →
      sentenceScan s df cols = Option.none) := by
  have hexact : ∀ df : Frame, ∀ c : String, df.columns.contains c = true →
      exactMatch "nan" df [c] =
        df.rows.find? (fun r => pandasStr (Row.cell r c) == "nan") := by
    intro df c hc
    simp only [exactMatch, exactCol, hc, if_true]
    cases hf : df.rows.find? (fun r => pandasStr (Row.cell r c) == "nan") <;> simp [hf]
  refine ⟨⟨by decide, rfl⟩, hexact, ?_, ?_, ?_⟩
  · intro df c r hr hcell hc
    rw [hexact df c hc]
    have : ∃ x, x ∈ df.rows ∧ (pandasStr (Row.cell x c) == "nan") = true := by
      refine ⟨r, hr, ?_⟩
      rw [hcell]
      decide
    rw [List.find?_isSome]
    simpa using this
  · intro s df c hall
    unfold reverseCol
    rw [List.find?_eq_none]
    intro r hr
    have h0 : normalizeText (Row.cell r c) = "" := normalizeText_of_isna (hall r hr)
    simp [h0, strFalsy]
  · intro s df cols hall
    unfold sentenceScan
    rw [scanLoop_eq]
    have hnil : (scanPairs df cols).filter (scanOcc s) = [] := by
      rw [List.filter_eq_nil_iff]
      intro p hp
      simp only [scanPairs, List.mem_flatMap, List.mem_filter, List.mem_map] at hp
      obtain ⟨c, ⟨hcmem, hcpres⟩, r, hrmem, hpr⟩ := hp
      have h0 : normalizeText (Row.cell r c) = "" :=
        normalizeText_of_isna (hall r hrmem c hcmem)
      subst hpr
      simp [scanOcc, h0, strFalsy]
    rw [hnil]
    simp [maxHitLen]

/-- **C10** (confirmed): when a hazard query matches a row, the returned
`analyzable` and `interest` flags are exactly "column present AND cell
truthy" for the `ANALYZABLE` / `INTEREST_ITEM` cells of the matched row,
where truthiness is Python's: every non-empty string (including `"N"`) and
every missing (NaN) cell is truthy, while the empty string, `False` and `0`
are falsy. -/
theorem hazard_flag_truthiness (sc : String → String → Nat) (fm : FuzzyMatcher)
    (raw : PyVal) (df : Frame) (r : Row)
    (hd : df.isEmpty = false) (ht : raw.truthy = true)
    (hs : strFalsy (normalizeText raw) = false)
    (hrow : hazardMatchedRow sc fm (normalizeText raw) df = some r) :
    (matchHazardCategory sc fm raw df).analyzable =
      (df.columns.contains "ANALYZABLE" && (Row.cell r "ANALYZABLE").truthy) ∧
    (matchHazardCategory sc fm raw df).interest =
      (df.columns.contains "INTEREST_ITEM" && (Row.cell r "INTEREST_ITEM").truthy) ∧
    PyVal.truthy PyVal.nan = true ∧
    (∀ t : String, t.length ≠ 0 → PyVal.truthy (PyVal.str t) = true) ∧
    PyVal.truthy (PyVal.str "N") = true ∧
    PyVal.truthy (PyVal.str "") = false ∧
    PyVal.truthy (PyVal.bool false) = false ∧
    PyVal.truthy (PyVal.int 0) = false := by
  have hmain : matchHazardCategory sc fm raw df =
      { category :=
          if df.columns.contains "M_KOR_NM" then some (Row.cell r "M_KOR_NM")
          else Option.none
        analyzable :=
          if df.columns.contains "ANALYZABLE" then (Row.cell r "ANALYZABLE").truthy
          else false
        interest :=
          if df.columns.contains "INTEREST_ITEM" then (Row.cell r "INTEREST_ITEM").truthy
          else false } := by
    simp only [matchHazardCategory, hd, ht, hs, hrow]
    rfl
  refine ⟨?_, ?_, rfl, ?_, rfl, rfl, rfl, rfl⟩
  · rw [hmain]
    cases hca : df.columns.contains "ANALYZABLE" <;> simp [hca]
  · rw [hmain]
    cases hci : df.columns.contains "INTEREST_ITEM" <;> simp [hci]
  · intro t htl
    simp [PyVal.truthy]
    omega

/-! ## Lemmas on the similarity matcher -/

theorem argmaxFirst_eq_none {f : String → Nat} {l : List String} :
    argmaxFirst f l = Option.none ↔ l = [] := by
  cases l with
  | nil => simp [argmaxFirst]
  | cons a t =>
    simp only [argmaxFirst]
    cases h : argmaxFirst f t with
    | none => simp
    | some p =>
      obtain ⟨c, s0, i⟩ := p
      by_cases hge : f a ≥ s0 <;> simp [hge]

theorem argmaxFirst_some {f : String → Nat} :
    ∀ {l : List String} {c : String} {s0 i : Nat},
      argmaxFirst f l = some (c, s0, i) →
      s0 = f c ∧ l[i]? = some c ∧ s0 = listMaxF f l := by
  intro l
  induction l with
  | nil => intro c s0 i h; cases h
  | cons a t ih =>
    intro c s0 i h
    simp only [argmaxFirst] at h
    cases ht : argmaxFirst f t with
    | none =>
      rw [ht] at h
      dsimp only at h
      cases h
      have htnil : t = [] := argmaxFirst_eq_none.mp ht
      subst htnil
      exact ⟨rfl, by simp, by simp [listMaxF]⟩
    | some p =>
      obtain ⟨c', s', i'⟩ := p
      rw [ht] at h
      dsimp only at h
      obtain ⟨ihs, ihget, ihmax⟩ := ih ht
      by_cases hge : f a ≥ s'
      · rw [if_pos hge] at h
        cases h
        refine ⟨rfl, by simp, ?_⟩
        have hstep : listMaxF f (a :: t) = max (f a) (listMaxF f t) := rfl
        rw [hstep, ← ihmax, Nat.max_eq_left hge]
      · rw [if_neg hge] at h
        cases h
        refine ⟨ihs, by simpa using ihget, ?_⟩
        have hstep : listMaxF f (a :: t) = max (f a) (listMaxF f t) := rfl
        rw [hstep, ← ihmax, Nat.max_eq_right (by omega)]

theorem extractOne_eq_none {sc : String → String → Nat} {q : String}
    {choices : List String} {cutoff : Nat} (hcut : 1 ≤ cutoff) :
    extractOne sc q choices cutoff = Option.none ↔
      listMaxF (sc q) choices < cutoff := by
  unfold extractOne
  cases h : argmaxFirst (sc q) choices with
  | none =>
    have hc : choices = [] := argmaxFirst_eq_none.mp h
    subst hc
    dsimp only
    simp [listMaxF]
    omega
  | some p =>
    obtain ⟨c, s0, i⟩ := p
    obtain ⟨-, -, hmax⟩ := argmaxFirst_some h
    dsimp only
    by_cases hge : s0 ≥ cutoff
    · rw [if_pos hge]
      rw [← hmax]
      constructor
      · intro hx; cases hx
      · intro hlt; exact absurd hlt (by omega)
    · rw [if_neg hge]
      rw [← hmax]
      constructor
      · intro _; omega
      · intro _; rfl

theorem extractOne_some {sc : String → String → Nat} {q : String}
    {choices : List String} {cutoff : Nat} {c : String} {s0 i : Nat}
    (h : extractOne sc q choices cutoff = some (c, s0, i)) :
    s0 = listMaxF (sc q) choices ∧ cutoff ≤ s0 ∧ choices[i]? = some c ∧
      sc q c = s0 := by
  unfold extractOne at h
  cases ha : argmaxFirst (sc q) choices with
  | none => rw [ha] at h; cases h
  | some p =>
    obtain ⟨c', s', i'⟩ := p
    rw [ha] at h
    dsimp only at h
    obtain ⟨hs, hget, hmax⟩ := argmaxFirst_some ha
    by_cases hge : s' ≥ cutoff
    · rw [if_pos hge] at h
      cases h
      exact ⟨hmax, hge, hget, hs.symm⟩
    · rw [if_neg hge] at h
      cases h

theorem fuzzyLoop_some_isSome (sc : String → String → Nat) (cutoff : Nat)
    (s : String) (df : Frame) :
    ∀ (rem : List String) (r : Row) (bs : Nat),
      ∃ q, fuzzyLoop sc cutoff s df rem (some r) bs = some q := by
  intro rem
  induction rem with
  | nil => intro r bs; exact ⟨r, rfl⟩
  | cons c rest ih =>
    intro r bs
    simp only [fuzzyLoop]
    by_cases hc : df.columns.contains c
    · rw [if_pos hc]
      cases he : extractOne sc s (df.rows.map (fun r => pandasStr (Row.cell r c))) cutoff with
      | none => exact ih r bs
      | some p =>
        obtain ⟨ch, sco, idx⟩ := p
        dsimp only
        by_cases hgt : sco > bs
        · rw [if_pos hgt]
          exact ih _ sco
        · rw [if_neg hgt]
          exact ih r bs
    · rw [if_neg hc]
      exact ih r bs

theorem fuzzyLoop_none_iff (sc : String → String → Nat) (cutoff : Nat)
    (s : String) (df : Frame) :
    ∀ (rem : List String) (bs : Nat), bs < cutoff →
      (fuzzyLoop sc cutoff s df rem Option.none bs = Option.none ↔
        globalMaxScore sc s df rem < cutoff) := by
  intro rem
  induction rem with
  | nil =>
    intro bs hbs
    simp [fuzzyLoop, globalMaxScore]
    omega
  | cons c rest ih =>
    intro bs hbs
    simp only [fuzzyLoop, globalMaxScore]
    by_cases hc : df.columns.contains c
    · rw [if_pos hc, if_pos hc]
      cases he : extractOne sc s (df.rows.map (fun r => pandasStr (Row.cell r c))) cutoff with
      | none =>
        have hlt : colMax sc s df c < cutoff := (extractOne_eq_none (by omega)).mp he
        dsimp only
        rw [ih bs hbs, Nat.max_lt]
        constructor
        · exact fun h => ⟨hlt, h⟩
        · exact fun h => h.2
      | some p =>
        obtain ⟨ch, sco, idx⟩ := p
        obtain ⟨hmax, hcut2, -, -⟩ := extractOne_some he
        have hgt : sco > bs := by omega
        dsimp only
        rw [if_pos hgt]
        obtain ⟨q, hq⟩ := fuzzyLoop_some_isSome sc cutoff s df rest
          (df.rows[idx]?.getD ⟨[]⟩) sco
        rw [hq]
        have hnl : ¬ max (colMax sc s df c) (globalMaxScore sc s df rest) < cutoff := by
          have h1 : colMax sc s df c ≤ max (colMax sc s df c) (globalMaxScore sc s df rest) :=
            Nat.le_max_left _ _
          have h2 : colMax sc s df c = sco := by rw [hmax]; rfl
          omega
        simp [hnl]
    · rw [if_neg hc, if_neg hc]
      exact ih bs hbs

theorem cutMaxScore_le_globalMaxScore (sc : String → String → Nat) (cutoff : Nat)
    (s : String) (df : Frame) :
    ∀ rem : List String,
      cutMaxScore sc cutoff s df rem ≤ globalMaxScore sc s df rem := by
  intro rem
  induction rem with
  | nil => exact Nat.le_refl _
  | cons c rest ih =>
    simp only [cutMaxScore, globalMaxScore]
    by_cases hc : df.columns.contains c = true
    · rw [if_pos hc]
      by_cases hq : df.columns.contains c = true ∧ cutoff ≤ colMax sc s df c
      · rw [if_pos hq]
        exact max_le_max (Nat.le_refl _) ih
      · rw [if_neg hq]
        exact Nat.le_trans ih (Nat.le_max_right _ _)
    · rw [if_neg hc, if_neg (by tauto)]
      exact ih

theorem globalMaxScore_eq_cutMaxScore (sc : String → String → Nat) (cutoff : Nat)
    (s : String) (df : Frame) :
    ∀ rem : List String, cutoff ≤ globalMaxScore sc s df rem →
      globalMaxScore sc s df rem = cutMaxScore sc cutoff s df rem := by
  intro rem
  induction rem with
  | nil => intro h; rfl
  | cons c rest ih =>
    intro h
    simp only [globalMaxScore, cutMaxScore] at h ⊢
    by_cases hc : df.columns.contains c = true
    · rw [if_pos hc] at h ⊢
      by_cases hcm : cutoff ≤ colMax sc s df c
      · rw [if_pos ⟨hc, hcm⟩]
        by_cases hrest : globalMaxScore sc s df rest ≤ colMax sc s df c
        · rw [Nat.max_eq_left hrest, Nat.max_eq_left]
          exact Nat.le_trans (cutMaxScore_le_globalMaxScore sc cutoff s df rest) hrest
        · push_neg at hrest
          have hcg : cutoff ≤ globalMaxScore sc s df rest := by omega
          rw [Nat.max_eq_right (Nat.le_of_lt hrest), ih hcg, Nat.max_eq_right]
          rw [← ih hcg]
          exact Nat.le_of_lt hrest
      · push_neg at hcm
        rw [if_neg (by omega : ¬ (df.columns.contains c = true ∧ cutoff ≤ colMax sc s df c))]
        have hcg : cutoff ≤ globalMaxScore sc s df rest := by
          rcases Nat.max_le .. |>.mp (Nat.le_refl (max (colMax sc s df c) (globalMaxScore sc s df rest))) with ⟨-, -⟩
          omega
        rw [Nat.max_eq_right (by omega), ih hcg]
    · rw [if_neg hc] at h ⊢
      rw [if_neg (by tauto)]
      exact ih h

theorem fuzzyLoop_attains (sc : String → String → Nat) (cutoff : Nat)
    (s : String) (df : Frame) (cols₀ : List String) (hcut : 1 ≤ cutoff) :
    ∀ (rem : List String) (b : Option Row) (bs : Nat),
      (∀ c, rem.contains c = true → cols₀.contains c = true) →
      (∀ r, b = some r → attains sc s df cols₀ r bs) →
      ∀ q, fuzzyLoop sc cutoff s df rem b bs = some q →
        attains sc s df cols₀ q (max bs (cutMaxScore sc cutoff s df rem)) := by
  intro rem
  induction rem with
  | nil =>
    intro b bs _ hb q hq
    have := hb q hq
    simpa [cutMaxScore] using this
  | cons c rest ih =>
    intro b bs hsub hb q hq
    have hsubr : ∀ x, rest.contains x = true → cols₀.contains x = true := by
      intro x hx
      apply hsub
      simp only [List.contains_cons, hx, Bool.or_true]
    simp only [fuzzyLoop] at hq
    simp only [cutMaxScore]
    by_cases hc : df.columns.contains c
    · rw [if_pos hc] at hq
      cases he : extractOne sc s (df.rows.map (fun r => pandasStr (Row.cell r c))) cutoff with
      | none =>
        rw [he] at hq
        dsimp only at hq
        have hlt : colMax sc s df c < cutoff := (extractOne_eq_none hcut).mp he
        rw [if_neg (by omega : ¬ (df.columns.contains c = true ∧ cutoff ≤ colMax sc s df c))]
        exact ih b bs hsubr hb q hq
      | some p =>
        obtain ⟨ch, sco, idx⟩ := p
        rw [he] at hq
        dsimp only at hq
        obtain ⟨hmax, hcut2, hget, hch⟩ := extractOne_some he
        have hcm : colMax sc s df c = sco := by rw [hmax]; rfl
        rw [if_pos ⟨hc, by omega⟩]
        obtain ⟨r₀, hr₀, hgr₀⟩ : ∃ r₀, df.rows[idx]? = some r₀ ∧
            pandasStr (Row.cell r₀ c) = ch := by
          rw [List.getElem?_map] at hget
          cases hrx : df.rows[idx]? with
          | none => rw [hrx] at hget; cases hget
          | some r₀ =>
            rw [hrx] at hget
            refine ⟨r₀, rfl, ?_⟩
            cases hget
            rfl
        have hmem : r₀ ∈ df.rows := by
          obtain ⟨hlt2, hval⟩ := List.getElem?_eq_some.mp hr₀
          exact hval ▸ List.getElem_mem hlt2
        by_cases hgt : sco > bs
        · rw [if_pos hgt] at hq
          have hb₀ : ∀ r, (some (df.rows[idx]?.getD ⟨[]⟩) : Option Row) = some r →
              attains sc s df cols₀ r sco := by
            intro r hr
            have hr₀d : df.rows[idx]?.getD (⟨[]⟩ : Row) = r₀ := by rw [hr₀]; rfl
            rw [hr₀d] at hr
            cases hr
            exact ⟨c, hsub c (by simp [List.contains_cons]), hc, hmem, by rw [hgr₀, hch]⟩
          have := ih _ sco hsubr hb₀ q hq
          have heq : max bs (max (colMax sc s df c) (cutMaxScore sc cutoff s df rest)) =
              max sco (cutMaxScore sc cutoff s df rest) := by
            rw [hcm]
            have h1 : bs ≤ max sco (cutMaxScore sc cutoff s df rest) :=
              Nat.le_trans (Nat.le_of_lt hgt) (Nat.le_max_left _ _)
            rw [Nat.max_eq_right h1]
          rw [heq]
          exact this
        · rw [if_neg hgt] at hq
          have := ih b bs hsubr hb q hq
          have heq : max bs (max (colMax sc s df c) (cutMaxScore sc cutoff s df rest)) =
              max bs (cutMaxScore sc cutoff s df rest) := by
            rw [hcm, ← Nat.max_assoc, Nat.max_eq_left (by omega : sco ≤ bs)]
          rw [heq]
          exact this
    · rw [if_neg hc] at hq
      rw [if_neg (by tauto)]
      exact ih b bs hsubr hb q hq

theorem listMaxF_le {f : String → Nat} {n : Nat} (hf : ∀ x, f x ≤ n) :
    ∀ l : List String, listMaxF f l ≤ n := by
  intro l
  induction l with
  | nil => exact Nat.zero_le _
  | cons a t ih => exact Nat.max_le.mpr ⟨hf a, ih⟩

theorem globalMaxScore_le {sc : String → String → Nat} {s : String} {df : Frame}
    {n : Nat} (h : ∀ a b, sc a b ≤ n) :
    ∀ cols : List String, globalMaxScore sc s df cols ≤ n := by
  intro cols
  induction cols with
  | nil => exact Nat.zero_le _
  | cons c rest ih =>
    simp only [globalMaxScore]
    by_cases hc : df.columns.contains c = true
    · rw [if_pos hc]
      exact Nat.max_le.mpr ⟨listMaxF_le (fun x => h s x) _, ih⟩
    · rw [if_neg hc]
      exact ih

/-- **C5 (amended)**: for every positive cutoff (1 ≤ cutoff), the similarity
matcher returns a match if and only if the globally best score across all
candidate columns is at or above the cutoff — so a query scoring exactly at
the cutoff matches and one scoring below does not — and any returned entry
realizes that globally best score in some candidate column, independently of
column order.  (The amendment restricts the cutoff to be positive: with
cutoff 0 and best score exactly 0, the code returns no match, see the
counterexample.) -/
theorem similarity_global_best (sc : String → String → Nat) (cutoff : Nat)
    (s : String) (df : Frame) (cols : List String) (hcut : 1 ≤ cutoff) :
    ((fuzzyMatch sc cutoff s df cols).isSome = true ↔
      cutoff ≤ globalMaxScore sc s df cols) ∧
    ∀ r, fuzzyMatch sc cutoff s df cols = some r →
      attains sc s df cols r (globalMaxScore sc s df cols) := by
  have hiff : (fuzzyMatch sc cutoff s df cols).isSome = true ↔
      cutoff ≤ globalMaxScore sc s df cols := by
    constructor
    · intro hs
      by_contra hlt
      push_neg at hlt
      have hnone : fuzzyMatch sc cutoff s df cols = Option.none :=
        (fuzzyLoop_none_iff sc cutoff s df cols 0 (by omega)).mpr hlt
      rw [hnone] at hs
      cases hs
    · intro hle
      cases hfz : fuzzyMatch sc cutoff s df cols with
      | none =>
        have := (fuzzyLoop_none_iff sc cutoff s df cols 0 (by omega)).mp hfz
        omega
      | some r => rfl
  refine ⟨hiff, ?_⟩
  intro r hr
  have hle : cutoff ≤ globalMaxScore sc s df cols := hiff.mp (by rw [hr]; rfl)
  have h2 := fuzzyLoop_attains sc cutoff s df cols hcut cols Option.none 0
    (fun c hc => hc) (fun x hx => by cases hx) r hr
  rw [Nat.zero_max, ← globalMaxScore_eq_cutMaxScore sc cutoff s df cols hle] at h2
  exact h2

/-- **C5 counterexample**: with cutoff 0 (a value the 0–100 scale allows) and
a scorer yielding 0 — as rapidfuzz `WRatio` does for completely dissimilar
strings such as `"abc"` vs `"xyz"` — the globally best score (0) is at the
cutoff, yet the matcher returns no match, because the running best is only
replaced on a strictly positive score.  This refutes the claim's "at or
above the cutoff is a match" as universally stated. -/
theorem similarity_cutoff_zero_cex :
    fuzzyMatch scZero 0 "abc" wXyzDf ["KOR_NM"] = Option.none ∧
    globalMaxScore scZero "abc" wXyzDf ["KOR_NM"] = 0 ∧
    (0 : Nat) ≤ 0 := by
  refine ⟨?_, ?_, ?_⟩ <;> decide

/-- **C6 (amended)**: the constructor performs no validation at all: any
similarity cutoff, inside or outside 0–100, is accepted and stored verbatim
at construction/override time; the consequences surface only at query time —
in particular, with any scorer bounded by 100, a cutoff above 100 silently
makes the similarity stage unable to match, instead of an error being
raised. -/
theorem init_accepts_any_cutoff (st lt : Nat) :
    (FuzzyMatcher.init st lt).similarity_threshold = st ∧
    (FuzzyMatcher.init st lt).long_text_threshold = lt ∧
    (∀ (sc : String → String → Nat) (s : String) (df : Frame) (cols : List String),
      (∀ a b, sc a b ≤ 100) → 100 < st →
      fuzzyMatch sc st s df cols = Option.none) := by
  refine ⟨rfl, rfl, ?_⟩
  intro sc s df cols hb h100
  have hgl : globalMaxScore sc s df cols ≤ 100 := globalMaxScore_le hb cols
  exact (fuzzyLoop_none_iff sc st s df cols 0 (by omega)).mpr (by omega)

/-- **C6 counterexample**: constructing the matcher with similarity cutoff
150 — outside the 0–100 range — succeeds and stores the value unchanged (no
descriptive error exists anywhere in `__init__`), and querying with that
configuration still executes normally, returning an ordinary no-match
result.  This refutes rejection at construction/override time. -/
theorem init_no_validation_cex :
    FuzzyMatcher.init 150 30 = ⟨150, 30⟩ ∧
    (FuzzyMatcher.init 150 30).similarity_threshold = 150 ∧
    matchProductType scEq (FuzzyMatcher.init 150 30) (PyVal.str "zzz") wProductDf =
      noProduct := by
  refine ⟨rfl, rfl, ?_⟩
  decide

/-- **C2 (amended)**: in keyword matching, per candidate column two passes
run in order — first reference-value-contains-query (the vectorized
`str.contains` pass), then query-contains-reference-value (the items loop) —
the opposite orientation order from the claim; within a pass the first row in
row order wins, both passes of a column precede the next column, absent
columns are skipped, and no hit in any column yields no match. -/
theorem keyword_pass_order_amended (s : String) (df : Frame) (c : String)
    (rest : List String) :
    keywordMatch s df [] = Option.none ∧
    (df.columns.contains c = false →
      keywordMatch s df (c :: rest) = keywordMatch s df rest) ∧
    (df.columns.contains c = true →
      keywordMatch s df (c :: rest) =
        ((containsCol s df c).orElse fun _ =>
          (reverseCol s df c).orElse fun _ => keywordMatch s df rest)) := by
  refine ⟨rfl, ?_, ?_⟩
  · intro h
    have hm : ¬ (c ∈ df.columns) := by simpa using h
    simp [keywordMatch, hm]
  · intro h
    have hm : c ∈ df.columns := by simpa using h
    cases hcc : containsCol s df c <;> cases hrc : reverseCol s df c <;>
      simp [keywordMatch, hm, hcc, hrc, Option.orElse]

/-- **C2 counterexample**: for query `"abc"` against reference values
`"abcdef"` (row 0: the value contains the query) and `"ab"` (row 1: the
query contains the value), the code returns row 0 — its first pass is
value-contains-query — while the claim's pass order (query-contains-value
first) would return row 1. -/
theorem keyword_pass_order_cex :
    keywordMatch "abc" wKeywordDf ["KOR_NM"] = some rowAbcdef ∧
    specKeywordClaimOrder "abc" wKeywordDf ["KOR_NM"] = some rowAb ∧
    rowAbcdef ≠ rowAb := by
  refine ⟨?_, ?_, ?_⟩ <;> decide

/-- **C3 (amended)**: the keyword matcher applies no length-based guard: a
reference value of any length — including a single character — matches by
plain substring containment, so a query containing a 1-character keyword
only inside a larger unrelated word does match, just like a query containing
it as a standalone token. -/
theorem keyword_no_length_guard (s : String) (c : String) (r : Row)
    (hne : strFalsy (normalizeText (Row.cell r c)) = false)
    (hsub : substrB (normalizeText (Row.cell r c)) s = true) :
    keywordMatch s ⟨[c], [r]⟩ [c] = some r := by
  have hc : (Frame.columns ⟨[c], [r]⟩).contains c = true := by simp
  by_cases hb : substrB s (pandasStr (Row.cell r c)) = true
  · have h1 : containsCol s ⟨[c], [r]⟩ c = some r := by
      simp [containsCol, List.find?, hb]
    simp [keywordMatch, hc, h1]
  · have h1 : containsCol s ⟨[c], [r]⟩ c = Option.none := by
      simp [containsCol, List.find?, hb]
    have h2 : reverseCol s ⟨[c], [r]⟩ c = some r := by
      simp [reverseCol, List.find?, hne, hsub]
    simp [keywordMatch, hc, h1, h2]

/-- **C3 counterexample**: a 1-character reference value (`"a"`) matches via
raw substring containment inside the unrelated word `"cat"` — the claim
requires no match here. -/
theorem short_keyword_guard_cex :
    Row.cell rowSingleA "KOR_NM" = PyVal.str "a" ∧
    (normalizeText (Row.cell rowSingleA "KOR_NM")).length = 1 ∧
    keywordMatch "cat" wOneCharDf ["KOR_NM"] = some rowSingleA := by
  refine ⟨?_, ?_, ?_⟩ <;> decide

/-! ## Witnesses -/

/-- Witness for C1: a concrete 54-character narrative query exceeds the
default threshold 30, follows the sentence-scan cascade, and its resolution
is unchanged under two different similarity scorers. -/
theorem hazard_long_text_cascade_witness :
    30 < (normalizeText (PyVal.str "The laboratory confirmed presence of E. coli bacteria")).length ∧
    hazardMatchedRow scEq (FuzzyMatcher.init 80 30)
        (normalizeText (PyVal.str "The laboratory confirmed presence of E. coli bacteria")) wHazardDf =
      ((sentenceScan (normalizeText (PyVal.str "The laboratory confirmed presence of E. coli bacteria")) wHazardDf hazardCols).orElse fun _ =>
        (exactMatch (normalizeText (PyVal.str "The laboratory confirmed presence of E. coli bacteria")) wHazardDf hazardCols).orElse fun _ =>
          keywordMatch (normalizeText (PyVal.str "The laboratory confirmed presence of E. coli bacteria")) wHazardDf hazardCols) ∧
    matchHazardCategory scEq (FuzzyMatcher.init 80 30)
        (PyVal.str "The laboratory confirmed presence of E. coli bacteria") wHazardDf =
      matchHazardCategory scEq2 (FuzzyMatcher.init 80 30)
        (PyVal.str "The laboratory confirmed presence of E. coli bacteria") wHazardDf :=
  ⟨by decide,
   ((hazard_long_text_cascade scEq scEq2 (FuzzyMatcher.init 80 30)
      (PyVal.str "The laboratory confirmed presence of E. coli bacteria") wHazardDf).1
      (by decide)).1,
   ((hazard_long_text_cascade scEq scEq2 (FuzzyMatcher.init 80 30)
      (PyVal.str "The laboratory confirmed presence of E. coli bacteria") wHazardDf).1
      (by decide)).2⟩

/-- Witness for C7: `None`, a whitespace-only string, and an empty snapshot
all produce the all-null/false no-match results. -/
theorem resolve_blank_no_match_witness :
    normalizeText PyVal.none = "" ∧
    matchProductType scEq (FuzzyMatcher.init 80 30) PyVal.none wProductDf = noProduct ∧
    matchHazardCategory scEq (FuzzyMatcher.init 80 30) (PyVal.str "   ") wHazardDf = noHazard ∧
    Frame.isEmpty ⟨[], []⟩ = true ∧
    matchProductType scEq (FuzzyMatcher.init 80 30) (PyVal.str "Shrimp") ⟨[], []⟩ = noProduct :=
  ⟨rfl,
   ((resolve_blank_no_match scEq (FuzzyMatcher.init 80 30) wProductDf PyVal.none).1 rfl).1,
   ((resolve_blank_no_match scEq (FuzzyMatcher.init 80 30) wHazardDf (PyVal.str "   ")).1
      (by decide)).2,
   rfl,
   ((resolve_blank_no_match scEq (FuzzyMatcher.init 80 30) ⟨[], []⟩ (PyVal.str "Shrimp")).2.1
      rfl).1⟩

/-- Witness for C8: `" Shrimp "`, `"SHRIMP"` and `"shrimp"` all resolve like
`"Shrimp"`. -/
theorem resolve_case_whitespace_insensitive_witness :
    normalizeText (PyVal.str " Shrimp ") = normalizeText (PyVal.str "Shrimp") ∧
    matchProductType scEq (FuzzyMatcher.init 80 30) (PyVal.str " Shrimp ") wProductDf =
      matchProductType scEq (FuzzyMatcher.init 80 30) (PyVal.str "Shrimp") wProductDf ∧
    matchProductType scEq (FuzzyMatcher.init 80 30) (PyVal.str "SHRIMP") wProductDf =
      matchProductType scEq (FuzzyMatcher.init 80 30) (PyVal.str "Shrimp") wProductDf ∧
    matchProductType scEq (FuzzyMatcher.init 80 30) (PyVal.str "shrimp") wProductDf =
      matchProductType scEq (FuzzyMatcher.init 80 30) (PyVal.str "Shrimp") wProductDf :=
  ⟨by decide,
   (resolve_case_whitespace_insensitive scEq (FuzzyMatcher.init 80 30) wProductDf
      (PyVal.str " Shrimp ") (PyVal.str "Shrimp") (by decide)).1,
   (resolve_case_whitespace_insensitive scEq (FuzzyMatcher.init 80 30) wProductDf
      (PyVal.str "SHRIMP") (PyVal.str "Shrimp") (by decide)).1,
   (resolve_case_whitespace_insensitive scEq (FuzzyMatcher.init 80 30) wProductDf
      (PyVal.str "shrimp") (PyVal.str "Shrimp") (by decide)).1⟩

/-- Witness for C9: on a frame whose second row has a missing `KOR_NM` cell,
the query `"nan"` exact-matches, while the reverse pass and the sentence
scanner on an all-missing frame find nothing. -/
theorem nan_cell_asymmetry_witness :
    wNanDf.columns.contains "KOR_NM" = true ∧
    exactMatch "nan" wNanDf ["KOR_NM"] =
      wNanDf.rows.find? (fun r => pandasStr (Row.cell r "KOR_NM") == "nan") ∧
    (exactMatch "nan" wNanDf ["KOR_NM"]).isSome = true ∧
    reverseCol "banana" wNanOnlyDf "KOR_NM" = Option.none ∧
    sentenceScan "banana" wNanOnlyDf ["KOR_NM"] = Option.none :=
  ⟨by decide,
   nan_cell_asymmetry.2.1 wNanDf "KOR_NM" (by decide),
   nan_cell_asymmetry.2.2.1 wNanDf "KOR_NM" rowNan (by decide) (by decide) (by decide),
   nan_cell_asymmetry.2.2.2.1 "banana" wNanOnlyDf "KOR_NM" (by decide),
   nan_cell_asymmetry.2.2.2.2 "banana" wNanOnlyDf ["KOR_NM"] (by decide)⟩

/-- Witness for C10: the query `"coli"` matches the row whose `ANALYZABLE`
cell is the string `"N"` (truthy!) and whose `INTEREST_ITEM` cell is missing
(NaN, also truthy), so both flags come back per cell truthiness. -/
theorem hazard_flag_truthiness_witness :
    wHazardDf.isEmpty = false ∧ (PyVal.str "coli").truthy = true ∧
    strFalsy (normalizeText (PyVal.str "coli")) = false ∧
    hazardMatchedRow scEq (FuzzyMatcher.init 80 30)
      (normalizeText (PyVal.str "coli")) wHazardDf = some rowColi ∧
    ((matchHazardCategory scEq (FuzzyMatcher.init 80 30) (PyVal.str "coli") wHazardDf).analyzable =
        (wHazardDf.columns.contains "ANALYZABLE" && (Row.cell rowColi "ANALYZABLE").truthy) ∧
      (matchHazardCategory scEq (FuzzyMatcher.init 80 30) (PyVal.str "coli") wHazardDf).interest =
        (wHazardDf.columns.contains "INTEREST_ITEM" && (Row.cell rowColi "INTEREST_ITEM").truthy) ∧
      PyVal.truthy PyVal.nan = true ∧
      (∀ t : String, t.length ≠ 0 → PyVal.truthy (PyVal.str t) = true) ∧
      PyVal.truthy (PyVal.str "N") = true ∧
      PyVal.truthy (PyVal.str "") = false ∧
      PyVal.truthy (PyVal.bool false) = false ∧
      PyVal.truthy (PyVal.int 0) = false) :=
  ⟨by decide, by decide, by decide, by decide,
   hazard_flag_truthiness scEq (FuzzyMatcher.init 80 30) (PyVal.str "coli") wHazardDf rowColi
     (by decide) (by decide) (by decide) (by decide)⟩

/-- Witness for C5 (amended): with cutoff 80 and a concrete scorer giving
the value `"shrimp"` score 100, the match exists if and only if the global
best reaches the cutoff, and the matched row realizes the global best. -/
theorem similarity_global_best_witness :
    1 ≤ 80 ∧
    (((fuzzyMatch scEq 80 "shrimp" wProductDf productCols).isSome = true ↔
        80 ≤ globalMaxScore scEq "shrimp" wProductDf productCols) ∧
      ∀ r, fuzzyMatch scEq 80 "shrimp" wProductDf productCols = some r →
        attains scEq "shrimp" wProductDf productCols r
          (globalMaxScore scEq "shrimp" wProductDf productCols)) :=
  ⟨by decide, similarity_global_best scEq 80 "shrimp" wProductDf productCols (by decide)⟩

/-- Witness for C6 (amended): cutoff 150 is stored verbatim, and with the
bounded scorer `scEq` the similarity stage can never match at that cutoff. -/
theorem init_accepts_any_cutoff_witness :
    (∀ a b : String, scEq a b ≤ 100) ∧ 100 < 150 ∧
    (FuzzyMatcher.init 150 30).similarity_threshold = 150 ∧
    fuzzyMatch scEq 150 "shrimp" wProductDf productCols = Option.none :=
  ⟨fun a b => by unfold scEq; split <;> omega,
   by decide,
   (init_accepts_any_cutoff 150 30).1,
   (init_accepts_any_cutoff 150 30).2.2 scEq "shrimp" wProductDf productCols
     (fun a b => by unfold scEq; split <;> omega) (by decide)⟩

/-- Witness for C2 (amended): on the concrete keyword frame, the column
`KOR_NM` is present and the per-column pass structure holds. -/
theorem keyword_pass_order_amended_witness :
    wKeywordDf.columns.contains "KOR_NM" = true ∧
    keywordMatch "abc" wKeywordDf ["KOR_NM"] =
      ((containsCol "abc" wKeywordDf "KOR_NM").orElse fun _ =>
        (reverseCol "abc" wKeywordDf "KOR_NM").orElse fun _ =>
          keywordMatch "abc" wKeywordDf []) :=
  ⟨by decide,
   (keyword_pass_order_amended "abc" wKeywordDf "KOR_NM" []).2.2 (by decide)⟩

/-- Witness for C3 (amended): the 1-character value `"a"` matches both
inside the unrelated word `"cat"` and as the standalone token in `"a cat"`. -/
theorem keyword_no_length_guard_witness :
    strFalsy (normalizeText (Row.cell rowSingleA "KOR_NM")) = false ∧
    substrB (normalizeText (Row.cell rowSingleA "KOR_NM")) "cat" = true ∧
    keywordMatch "cat" ⟨["KOR_NM"], [rowSingleA]⟩ ["KOR_NM"] = some rowSingleA ∧
    substrB (normalizeText (Row.cell rowSingleA "KOR_NM")) "a cat" = true ∧
    keywordMatch "a cat" ⟨["KOR_NM"], [rowSingleA]⟩ ["KOR_NM"] = some rowSingleA :=
  ⟨by decide, by decide,
   keyword_no_length_guard "cat" "KOR_NM" rowSingleA (by decide) (by decide),
   by decide,
   keyword_no_length_guard "a cat" "KOR_NM" rowSingleA (by decide) (by decide)⟩
